import Mathlib

/-!
Shallow embedding of `label_data.py`, a small image-labeling tool.

The program keeps an in-memory table (`doors_df`, a pandas DataFrame with
columns `image`, `label`, `door_id`, plus any extra columns present in the
loaded file) and a GUI session state (current image index into a shuffled
file list, current label index into a fixed label list).  Persistence is a
full CSV rewrite (`DataFrame.to_csv`) on every save; loading is
`pandas.read_csv` guarded by an `os.path.exists` check.

The backing CSV file is modelled as `Option (List String)`: `none` when the
file does not exist, otherwise the list of text lines.  CSV encoding and
decoding are modelled at character level (comma-separated fields, one line
per row, header line first), the format `to_csv(index=False)` produces and
`read_csv` consumes for the files this program writes: the program's fields
never contain commas, quotes or newlines, so quoting never arises.
-/

namespace LabelData

/-- A CSV-safe field: no separator and no line break, so the simple
comma-join encoding used by `flush` is invertible on it. -/
def csvSafe (f : String) : Prop := ',' ∉ f.data ∧ '\n' ∉ f.data

instance (f : String) : Decidable (csvSafe f) := by
  unfold csvSafe; infer_instance

/-- Join fields with comma separators (character-level model of the row
encoding performed by `DataFrame.to_csv(index=False)`). -/
def joinFields : List (List Char) → List Char
  | [] => []
  | [f] => f
  | f :: g :: fs => f ++ ',' :: joinFields (g :: fs)

/-- Split a line at comma separators (character-level model of the row
decoding performed by `pandas.read_csv`). -/
def splitFields : List Char → List (List Char)
  | [] => [[]]
  | c :: cs =>
    if c = ',' then [] :: splitFields cs
    else
      match splitFields cs with
      | [] => [[c]]
      | f :: fs => (c :: f) :: fs

/-- Encode one CSV row from its fields. -/
def flushLine (fs : List String) : String := ⟨joinFields (fs.map String.data)⟩

/-- Decode one CSV line into its fields. -/
def parseLine (s : String) : List String := (splitFields s.data).map String.mk

/-- One row of `doors_df`: the three base columns `image`, `label`,
`door_id` (all values carried as the text that appears in the CSV file),
plus the values of any extra columns, kept opaquely. -/
structure Row where
  image : String
  label : String
  door_id : String
  extra : List String
deriving DecidableEq

/-- The in-memory table `doors_df`.  The base columns `image`, `label`,
`door_id` are implicit; `extraCols` names any further columns found in the
loaded file, in order. -/
structure Store where
  extraCols : List String
  rows : List Row
deriving DecidableEq

/-- The row insert/overwrite in `Labeler.save` (lines 117-122):
if the image already occurs in the `image` column, set `label` on every
matching row; otherwise append a fresh row
`(image, label, door_id)` (extra columns of an appended row are empty, the
model of the `NaN` values `DataFrame.append` puts there). -/
def upsert (s : Store) (img lab did : String) : Store :=
  if s.rows.any (fun r => r.image == img) then
    { s with rows := s.rows.map (fun r => if r.image = img then { r with label := lab } else r) }
  else
    { s with rows := s.rows ++ [⟨img, lab, did, List.replicate s.extraCols.length ""⟩] }

/-- Number of rows of the store carrying the given image identifier. -/
def countImg (s : Store) (img : String) : Nat :=
  (s.rows.filter (fun r => r.image == img)).length

/-- The CSV line encoding one row: its base column values then its extra
column values. -/
def rowLine (r : Row) : String :=
  flushLine ([r.image, r.label, r.door_id] ++ r.extra)

/-- Model of `DataFrame.to_csv(path, index=False)` in `Labeler.save` (line 124):
the full file contents, a header line followed by one line per row. -/
def flush (s : Store) : List String :=
  flushLine (["image", "label", "door_id"] ++ s.extraCols) :: s.rows.map rowLine

/-- Parse one data line.  The tokenizer's expected width `w` is set by the
first data row: a line with more than `w` fields raises the `ParserError`
(`Error tokenizing data`) `read_csv` raises there, and a line with fewer
is padded with `NaN` (modelled as `""`) up to `w`.  The `n` named columns
of the header take the trailing `n` of the `w` fields: when the data rows
are wider than the header (`w > n`), `read_csv` takes the `w - n` leading
fields as the row index, which the program's `to_csv(index=False)` later
discards — modelled by dropping them; when narrower (`w < n`), the missing
trailing columns are `NaN`. -/
def parseRow (w n : Nat) (line : String) : Except String Row :=
  let fields := parseLine line
  if fields.length > w then .error "Error tokenizing data"
  else
    let padded := fields ++ List.replicate (w - fields.length) ""
    let vals := if n ≤ w then padded.drop (w - n) else padded ++ List.replicate (n - w) ""
    match vals with
    | img :: lab :: did :: ex => .ok ⟨img, lab, did, ex⟩
    | _ => .error "too few columns"

/-- Parse the data lines of the file one by one, propagating the first
parse error. -/
def parseRows (w n : Nat) : List String → Except String (List Row)
  | [] => .ok []
  | line :: rest => do
    let r ← parseRow w n line
    let rs ← parseRows w n rest
    .ok (r :: rs)

/-- Model of `pandas.read_csv` on an existing file, modelled for the files this
program reads and writes: the header row must name the base columns
`image`, `label`, `door_id` first (further columns are retained opaquely as
`extraCols`); an empty file is the `EmptyDataError` `read_csv` raises; blank
lines are skipped (`skip_blank_lines=True`); the expected row width is
established by the first data row, so a later, wider data line raises the
`ParserError`, while files whose data rows are uniformly wider than the
header parse without error, the extra leading fields forming the row
index. -/
def parseCSV (lines : List String) : Except String Store :=
  match lines with
  | [] => .error "EmptyDataError"
  | header :: body =>
    let cols := parseLine header
    if cols.take 3 = ["image", "label", "door_id"] then
      let filtered := body.filter (fun l => !(l == ""))
      let w := (filtered.head?.map (fun first => (parseLine first).length)).getD 0
      (parseRows w (3 + (cols.drop 3).length) filtered).map
        (fun rows => ⟨cols.drop 3, rows⟩)
    else .error "unsupported header"

/-- Model of `Labeler.load_csv` (lines 91-96): if the file exists, parse it;
otherwise start from an empty table with columns `image`, `label`,
`door_id` (in the model: no extra columns, no rows). -/
def load (file : Option (List String)) : Except String Store :=
  match file with
  | none => .ok ⟨[], []⟩
  | some lines => parseCSV lines

/-- Index step of `Labeler.next_image` (lines 136-138, Python ints
modelled as `Int`): increment, wrapping to 0 past the end. -/
def fwdIdx (len : Nat) (i : Int) : Int :=
  if i + 1 ≥ (len : Int) then 0 else i + 1

/-- Index step of `Labeler.previous_image` (lines 128-130): decrement,
wrapping to `len - 1` below 0. -/
def bwdIdx (len : Nat) (i : Int) : Int :=
  if i - 1 < 0 then (len : Int) - 1 else i - 1

/-- The mutable session state of the `Labeler` object, restricted to the
fields the navigation/persistence flow touches.  `csvFile` is the contents
of the backing file at `path_to_csv` (`none`: file absent).  GUI widgets
(canvas, listbox, buttons) render state and are not modelled. -/
structure Labeler where
  doorId : Int
  imageFiles : List String
  labels : List String
  currentImage : Option String
  currentImageIndex : Int
  currentLabel : Option String
  currentLabelIndex : Int
  doorsDf : Store
  csvFile : Option (List String)
deriving DecidableEq

/-- Model of `Labeler.save` (lines 113-124): no-op when no label is selected;
otherwise upsert the current image's row and rewrite the whole backing
file.  (`currentImage` is always set when `save` runs in the program:
`load_image` runs at startup and after every navigation step; the `none`
branch is unreachable there and modelled as a no-op.) -/
def save (s : Labeler) : Labeler :=
  match s.currentLabel with
  | none => s
  | some lab =>
    match s.currentImage with
    | none => s
    | some img =>
      let df := upsert s.doorsDf img lab (toString s.doorId)
      { s with doorsDf := df, csvFile := some (flush df) }

/-- Model of `Labeler.load_image` (lines 98-111), state part only: set
`currentImage` to the file at the current index (the display side is not
modelled). -/
def load_image (s : Labeler) : Labeler :=
  { s with currentImage := s.imageFiles[s.currentImageIndex.toNat]? }

/-- Model of `Labeler.next_image` (lines 133-139): save unless `no_save`, advance
the index forward with wrap-around, reload the image. -/
def next_image (s : Labeler) (noSave : Bool := false) : Labeler :=
  let t := if noSave then s else save s
  load_image { t with currentImageIndex := fwdIdx t.imageFiles.length t.currentImageIndex }

/-- Model of `Labeler.previous_image` (lines 126-131): save, move the index
backward with wrap-around, reload the image. -/
def previous_image (s : Labeler) : Labeler :=
  let t := save s
  load_image { t with currentImageIndex := bwdIdx t.imageFiles.length t.currentImageIndex }

/-- Model of `Labeler.skip_image` (lines 141-142): `next_image` with `no_save=True`. -/
def skip_image (s : Labeler) : Labeler := next_image s true

/-- The forward navigation step as a unary function: `next_image` with its
default `no_save=False`, as the arrow-key and button handlers invoke it. -/
def nextStep : Labeler → Labeler := fun s => next_image s

/-- Model of `Labeler.previous_label` (lines 144-151), state part: move the label
index backward with wrap-around and select the label at the new index
(listbox highlighting not modelled). -/
def previous_label (s : Labeler) : Labeler :=
  let i := bwdIdx s.labels.length s.currentLabelIndex
  { s with currentLabelIndex := i, currentLabel := s.labels[i.toNat]? }

/-- Model of `Labeler.next_label` (lines 153-160), state part: move the label index
forward with wrap-around and select the label at the new index. -/
def next_label (s : Labeler) : Labeler :=
  let i := fwdIdx s.labels.length s.currentLabelIndex
  { s with currentLabelIndex := i, currentLabel := s.labels[i.toNat]? }

/-- Model of `Labeler.select_label` (lines 197-199): set the label index from an
explicit listbox pick (the listbox holds exactly the labels, so the picked
index is a position in `labels`) and select the label there. -/
def select_label (s : Labeler) (i : Nat) : Labeler :=
  { s with currentLabelIndex := (i : Int), currentLabel := s.labels[i]? }

/-- Both current indices are valid positions in their sequences. -/
def validIdx (s : Labeler) : Prop :=
  0 ≤ s.currentImageIndex ∧ s.currentImageIndex < (s.imageFiles.length : Int) ∧
    0 ≤ s.currentLabelIndex ∧ s.currentLabelIndex < (s.labels.length : Int)

/-- A raster image: dimensions and a pixel function (channel values
abstracted to a single `Nat` per pixel). -/
structure Img where
  width : Nat
  height : Nat
  px : Nat → Nat → Nat

/-- The fixed crop rectangle (left, upper, right, lower), line 35. -/
def IMAGE_CROP_AREA : Nat × Nat × Nat × Nat := (1020, 510, 1300, 1350)

/-- Model of `PIL.Image.crop(box)`: returns an image of the box's size; pixels of
the box that fall outside the source image are filled with 0.  `crop` does
not raise for a box extending beyond the image bounds. -/
def crop (im : Img) (box : Nat × Nat × Nat × Nat) : Img :=
  { width := box.2.2.1 - box.1
    height := box.2.2.2 - box.2.1
    px := fun x y =>
      if x + box.1 < im.width ∧ y + box.2.1 < im.height then
        im.px (x + box.1) (y + box.2.1)
      else 0 }

/-- Model of `prepare_image` (lines 37-46): crop the fixed region of interest. -/
def prepare_image (image : Img) : Img := crop image IMAGE_CROP_AREA

/-- Modelled from the spec: the spec's contract for the Image Preparer,
which "fails with an error if the crop rectangle exceeds the source
image's bounds" — `none` on an out-of-bounds crop, the crop otherwise.
Stated for comparison with `prepare_image`, the code's actual behavior. -/
def prepare_image_spec (image : Img) : Option Img :=
  if 1300 ≤ image.width ∧ 1350 ≤ image.height then
    some (crop image IMAGE_CROP_AREA)
  else none

/-- All fields of the store are CSV-safe and each row has exactly one
value per extra column — true of every table the program builds: pandas
keeps rows rectangular, and the program's identifiers, labels and ids
contain no commas or newlines. -/
def WFStore (s : Store) : Prop :=
  (∀ c ∈ s.extraCols, csvSafe c) ∧
    ∀ r ∈ s.rows, csvSafe r.image ∧ csvSafe r.label ∧ csvSafe r.door_id ∧
      r.extra.length = s.extraCols.length ∧ ∀ e ∈ r.extra, csvSafe e

instance (s : Store) : Decidable (WFStore s) := by
  unfold WFStore; infer_instance

instance (s : Labeler) : Decidable (validIdx s) := by
  unfold validIdx; infer_instance

-- Concrete data used by witnesses and counterexamples.

/-- The empty store `load` starts from when the file is absent. -/
def emptyStore : Store := ⟨[], []⟩

/-- A CSV file with an extra column, for exercising `load`. -/
def wfFile : List String := ["image,label,door_id,extra1", "a.jpg,open,1,e1", "b.jpg,closed,2,e2"]

/-- A CSV file whose data row carries one field more than the header:
`read_csv` takes the leading field as the row index and parses it without
error (the named columns receive the shifted values). -/
def indexFile : List String := ["image,label,door_id", "a.jpg,open,1,unexpected"]

/-- A genuinely malformed CSV file: the second data line is wider than the
first, which raises a `ParserError` in `read_csv`. -/
def raggedFile : List String :=
  ["image,label,door_id", "a.jpg,open,1", "b.jpg,closed,2,oops"]

/-- A CSV file holding two rows for the same image identifier. -/
def dupFile : List String := ["image,label,door_id", "a.jpg,x,1", "a.jpg,y,1"]

/-- The store `load` produces from `dupFile`. -/
def dupStore : Store := ⟨[], [⟨"a.jpg", "x", "1", []⟩, ⟨"a.jpg", "y", "1", []⟩]⟩

/-- A small session state: one image, one label, label selected. -/
def sampleLabeler : Labeler :=
  { doorId := 1
    imageFiles := ["a.jpg"]
    labels := ["open"]
    currentImage := some "a.jpg"
    currentImageIndex := 0
    currentLabel := some "open"
    currentLabelIndex := 0
    doorsDf := ⟨[], []⟩
    csvFile := none }

/-- A session state over three images and two labels. -/
def sampleLabeler3 : Labeler :=
  { doorId := 1
    imageFiles := ["a.jpg", "b.jpg", "c.jpg"]
    labels := ["open", "closed"]
    currentImage := some "a.jpg"
    currentImageIndex := 0
    currentLabel := none
    currentLabelIndex := 0
    doorsDf := ⟨[], []⟩
    csvFile := none }

/-- A 100x100 source image, smaller than the crop rectangle. -/
def tinyImg : Img := ⟨100, 100, fun _ _ => 0⟩

/-- A source image just large enough for the crop rectangle. -/
def bigImg : Img := ⟨1300, 1350, fun x y => x + y⟩

/-! ### CSV codec lemmas -/

@[simp]
theorem mk_data (s : String) : String.mk s.data = s := rfl

theorem splitFields_no_comma (f : List Char) (h : ',' ∉ f) : splitFields f = [f] := by
  induction f with
  | nil => rfl
  | cons c cs ih =>
    have hc : ¬ c = ',' := by intro hcc; exact h (by simp [hcc])
    have hcs : ',' ∉ cs := by intro hm; exact h (by simp [hm])
    simp only [splitFields, if_neg hc, ih hcs]

theorem splitFields_sep (f rest : List Char) (h : ',' ∉ f) :
    splitFields (f ++ ',' :: rest) = f :: splitFields rest := by
  induction f with
  | nil => simp [splitFields]
  | cons c cs ih =>
    have hc : ¬ c = ',' := by intro hcc; exact h (by simp [hcc])
    have hcs : ',' ∉ cs := by intro hm; exact h (by simp [hm])
    simp only [List.cons_append, splitFields, if_neg hc]
    rw [show cs.append (',' :: rest) = cs ++ ',' :: rest from rfl, ih hcs]

theorem map_mk_data (l : List String) : l.map (String.mk ∘ String.data) = l := by
  induction l with
  | nil => rfl
  | cons a as ih => simp only [List.map_cons, Function.comp_apply, mk_data, ih]

theorem splitFields_joinFields (fs : List (List Char)) (h0 : fs ≠ [])
    (h : ∀ f ∈ fs, ',' ∉ f) : splitFields (joinFields fs) = fs := by
  induction fs with
  | nil => exact absurd rfl h0
  | cons f gs ih =>
    cases gs with
    | nil => simpa [joinFields] using splitFields_no_comma f (h f (by simp))
    | cons g gs2 =>
      simp only [joinFields]
      rw [splitFields_sep _ _ (h f (by simp))]
      rw [ih (by simp) (fun x hx => h x (by simp [hx]))]

theorem parseLine_flushLine (fs : List String) (h0 : fs ≠ [])
    (h : ∀ f ∈ fs, ',' ∉ f.data) : parseLine (flushLine fs) = fs := by
  unfold parseLine flushLine
  rw [mk_data]
  · rw [splitFields_joinFields (fs.map String.data) (by simpa using h0)]
    · rw [List.map_map, map_mk_data]
    · intro f hf
      obtain ⟨g, hg, rfl⟩ := List.mem_map.mp hf
      exact h g hg

theorem flushLine_ne_empty (fs : List String) (h : 2 ≤ fs.length) : flushLine fs ≠ "" := by
  rcases fs with _ | ⟨a, _ | ⟨b, rest⟩⟩
  · simp at h
  · simp at h
  · intro he
    have hd : (flushLine (a :: b :: rest)).data = "".data := by rw [he]
    unfold flushLine at hd
    simp [joinFields] at hd

/-! ### Round-trip of a store through the backing file -/

theorem parseRow_rowLine (w n : Nat) (r : Row) (hw : w = 3 + r.extra.length)
    (hn : n = 3 + r.extra.length)
    (h1 : ',' ∉ r.image.data) (h2 : ',' ∉ r.label.data) (h3 : ',' ∉ r.door_id.data)
    (h4 : ∀ e ∈ r.extra, ',' ∉ e.data) :
    parseRow w n (rowLine r) = .ok r := by
  unfold parseRow rowLine
  rw [parseLine_flushLine _ (by simp)]
  · have hlen : ([r.image, r.label, r.door_id] ++ r.extra).length = w := by
      simp only [List.length_append, List.length_cons, List.length_nil, hw]
    rw [if_neg (by rw [hlen]; omega)]
    rw [hlen, Nat.sub_self]
    simp only [List.replicate_zero, List.append_nil]
    rw [if_pos (by omega : n ≤ w)]
    rw [show w - n = 0 by omega, List.drop_zero]
    simp only [List.cons_append, List.nil_append]
  · intro f hf
    simp only [List.mem_append, List.mem_cons, List.not_mem_nil, or_false] at hf
    rcases hf with (rfl | rfl | rfl) | hf
    · exact h1
    · exact h2
    · exact h3
    · exact h4 f hf

theorem parseRows_map (w n : Nat) (rows : List Row)
    (h : ∀ r ∈ rows, parseRow w n (rowLine r) = .ok r) :
    parseRows w n (rows.map rowLine) = .ok rows := by
  induction rows with
  | nil => rfl
  | cons r rs ih =>
    simp only [List.map_cons, parseRows]
    rw [h r (by simp), ih (fun x hx => h x (by simp [hx]))]
    rfl

theorem rowLine_ne_empty (r : Row) : rowLine r ≠ "" := by
  apply flushLine_ne_empty
  simp only [List.length_append, List.length_cons, List.length_nil]
  omega

theorem parseCSV_flush (st : Store) (h : WFStore st) : parseCSV (flush st) = .ok st := by
  obtain ⟨ecols, rows⟩ := st
  obtain ⟨hcols, hrows⟩ := h
  dsimp only at hcols hrows
  simp only [flush, parseCSV]
  rw [parseLine_flushLine _ (by simp)]
  · have htake : (["image", "label", "door_id"] ++ ecols).take 3 =
        ["image", "label", "door_id"] := rfl
    have hdrop : (["image", "label", "door_id"] ++ ecols).drop 3 = ecols := rfl
    rw [htake, if_pos rfl, hdrop]
    have hfil : (rows.map rowLine).filter (fun l => !(l == "")) = rows.map rowLine := by
      rw [List.filter_eq_self]
      intro a ha
      obtain ⟨r, _, rfl⟩ := List.mem_map.mp ha
      simpa using rowLine_ne_empty r
    rw [hfil]
    cases rows with
    | nil => rfl
    | cons r rs =>
      have hmem : r ∈ r :: rs := by simp
      obtain ⟨hi, hl, hd, hlen, hex⟩ := hrows r hmem
      have hw : (((r :: rs).map rowLine).head?.map
          (fun first => (parseLine first).length)).getD 0 = 3 + ecols.length := by
        show (parseLine (rowLine r)).length = 3 + ecols.length
        unfold rowLine
        rw [parseLine_flushLine _ (by simp)]
        · simp only [List.length_append, List.length_cons, List.length_nil]
          omega
        · intro f hf
          simp only [List.mem_append, List.mem_cons, List.not_mem_nil, or_false] at hf
          rcases hf with (rfl | rfl | rfl) | hf
          · exact hi.1
          · exact hl.1
          · exact hd.1
          · exact (hex f hf).1
      rw [hw]
      rw [parseRows_map (3 + ecols.length) (3 + ecols.length) (r :: rs)]
      · rfl
      · intro x hx
        obtain ⟨hxi, hxl, hxd, hxlen, hxex⟩ := hrows x hx
        exact parseRow_rowLine _ _ x (by omega) (by omega) hxi.1 hxl.1 hxd.1
          (fun e he => (hxex e he).1)
  · intro f hf
    simp only [List.mem_append, List.mem_cons, List.not_mem_nil, or_false] at hf
    rcases hf with (rfl | rfl | rfl) | hf
    · decide
    · decide
    · decide
    · exact (hcols f hf).1

/-! ### Upsert lemmas -/

theorem upsert_extraCols (s : Store) (img lab did : String) :
    (upsert s img lab did).extraCols = s.extraCols := by
  unfold upsert; split <;> rfl

theorem upsert_label_of_image (s : Store) (img lab did : String) :
    ∀ r ∈ (upsert s img lab did).rows, r.image = img → r.label = lab := by
  unfold upsert
  split
  next =>
    intro r hr hri
    obtain ⟨r0, hr0, heq⟩ := List.mem_map.mp hr
    subst heq
    by_cases h0 : r0.image = img
    · simp [h0]
    · simp only [if_neg h0] at hri
      exact absurd hri h0
  next hany =>
    intro r hr hri
    rcases List.mem_append.mp hr with hr | hr
    · exact absurd (List.any_eq_true.mpr ⟨r, hr, by simp [hri]⟩) hany
    · rw [List.mem_singleton.mp hr]

theorem mem_upsert_self (s : Store) (img lab did : String) :
    ∃ r ∈ (upsert s img lab did).rows, r.image = img := by
  unfold upsert
  split
  next hany =>
    obtain ⟨r0, hr0, hb⟩ := List.any_eq_true.mp hany
    refine ⟨_, List.mem_map_of_mem _ hr0, ?_⟩
    have h0 : r0.image = img := by simpa using hb
    simp [h0]
  next =>
    exact ⟨⟨img, lab, did, List.replicate s.extraCols.length ""⟩, by simp, rfl⟩

theorem upsert_WF (s : Store) (img lab did : String) (hs : WFStore s)
    (h1 : csvSafe img) (h2 : csvSafe lab) (h3 : csvSafe did) :
    WFStore (upsert s img lab did) := by
  obtain ⟨hcols, hrows⟩ := hs
  unfold upsert WFStore
  split
  next =>
    refine ⟨hcols, ?_⟩
    intro r hr
    obtain ⟨r0, hr0, heq⟩ := List.mem_map.mp hr
    subst heq
    obtain ⟨ha, hb, hc, hd, he⟩ := hrows r0 hr0
    by_cases h0 : r0.image = img
    · simp only [if_pos h0]
      exact ⟨ha, h2, hc, hd, he⟩
    · simp only [if_neg h0]
      exact ⟨ha, hb, hc, hd, he⟩
  next =>
    refine ⟨hcols, ?_⟩
    intro r hr
    rcases List.mem_append.mp hr with hr | hr
    · exact hrows r hr
    · rw [List.mem_singleton.mp hr]
      refine ⟨h1, h2, h3, by simp, ?_⟩
      intro e he
      rw [List.eq_of_mem_replicate he]
      decide

theorem countImg_map_update (rows : List Row) (img lab p : String) :
    ((rows.map (fun r => if r.image = img then { r with label := lab } else r)).filter
      (fun r => r.image == p)).length = (rows.filter (fun r => r.image == p)).length := by
  induction rows with
  | nil => rfl
  | cons r rs ih =>
    simp only [List.map_cons, List.filter_cons]
    have himg : (if r.image = img then { r with label := lab } else r).image = r.image := by
      split <;> rfl
    rw [himg]
    by_cases hp : (r.image == p) = true
    · rw [if_pos hp, if_pos hp]
      simpa using ih
    · rw [if_neg hp, if_neg hp]
      exact ih

theorem countImg_upsert_self (s : Store) (img lab did : String) :
    countImg (upsert s img lab did) img =
      if countImg s img = 0 then 1 else countImg s img := by
  unfold upsert countImg
  split
  next hany =>
    rw [countImg_map_update]
    obtain ⟨r0, hr0, hb⟩ := List.any_eq_true.mp hany
    have hpos : 0 < (s.rows.filter (fun r => r.image == img)).length :=
      List.length_pos.mpr (List.ne_nil_of_mem (List.mem_filter.mpr ⟨hr0, hb⟩))
    rw [if_neg (by omega)]
  next hany =>
    have h0 : s.rows.filter (fun r => r.image == img) = [] := by
      rw [List.filter_eq_nil_iff]
      intro a ha hba
      exact hany (List.any_eq_true.mpr ⟨a, ha, hba⟩)
    rw [List.filter_append, h0]
    simp

theorem countImg_upsert_other (s : Store) (img lab did p : String) (hp : p ≠ img) :
    countImg (upsert s img lab did) p = countImg s p := by
  unfold upsert countImg
  split
  · exact countImg_map_update s.rows img lab p
  · rw [List.filter_append]
    have h0 : List.filter (fun r => r.image == p)
        [(⟨img, lab, did, List.replicate s.extraCols.length ""⟩ : Row)] = [] := by
      simp [List.filter_cons, Ne.symm hp]
    rw [h0, List.append_nil]

theorem filter_not_map_update (rows : List Row) (img lab : String) :
    (rows.map (fun r => if r.image = img then { r with label := lab } else r)).filter
      (fun r => !(r.image == img)) = rows.filter (fun r => !(r.image == img)) := by
  induction rows with
  | nil => rfl
  | cons r rs ih =>
    simp only [List.map_cons, List.filter_cons]
    by_cases h0 : r.image = img
    · simp [h0, ih]
    · simp [h0, ih]

/-! ### Claims about the Label Store -/

/-- Claim C1: for every store state, image identifier, label and group
identifier, `upsert` followed by `flush` to the backing path and `load`
from that path yields back exactly the upserted store; in particular every
row for that image carries the upserted label, and such a row exists.  The
hypotheses say the store and the upserted values are CSV-representable
(fields free of separators and line breaks, rows rectangular), which holds
of every table the program builds. -/
theorem C1_save_roundtrip (s : Store) (img lab did : String)
    (hs : WFStore s) (h1 : csvSafe img) (h2 : csvSafe lab) (h3 : csvSafe did) :
    load (some (flush (upsert s img lab did))) = .ok (upsert s img lab did) ∧
    (∃ r ∈ (upsert s img lab did).rows, r.image = img) ∧
    (∀ r ∈ (upsert s img lab did).rows, r.image = img → r.label = lab) :=
  ⟨parseCSV_flush _ (upsert_WF s img lab did hs h1 h2 h3),
   mem_upsert_self s img lab did,
   upsert_label_of_image s img lab did⟩

/-- Witness for C1 at a concrete input: the empty store, image `a.jpg`,
label `open`, group identifier `1`. -/
theorem C1_save_roundtrip_witness :
    WFStore emptyStore ∧ csvSafe "a.jpg" ∧ csvSafe "open" ∧ csvSafe "1" ∧
    (load (some (flush (upsert emptyStore "a.jpg" "open" "1"))) =
        .ok (upsert emptyStore "a.jpg" "open" "1") ∧
      (∃ r ∈ (upsert emptyStore "a.jpg" "open" "1").rows, r.image = "a.jpg") ∧
      (∀ r ∈ (upsert emptyStore "a.jpg" "open" "1").rows,
        r.image = "a.jpg" → r.label = "open")) :=
  ⟨by decide, by decide, by decide, by decide,
   C1_save_roundtrip emptyStore "a.jpg" "open" "1" (by decide) (by decide) (by decide) (by decide)⟩

/-- Claim C2, counterexample: `load` does not deduplicate, so a backing
file holding two rows for `a.jpg` yields a store with two rows for that
image — the at-most-one-row invariant does not hold for arbitrary loaded
contents — and upserting twice updates both rows, leaving two rows (each
carrying the second label), not exactly one. -/
theorem C2_counterexample :
    load (some dupFile) = .ok dupStore ∧
    countImg dupStore "a.jpg" = 2 ∧
    countImg (upsert (upsert dupStore "a.jpg" "open" "1") "a.jpg" "closed" "1") "a.jpg" = 2 :=
  ⟨rfl, rfl, rfl⟩

/-- Claim C2, amended: provided the initial store has at most one row per
image identifier (as every store built by upserts from an empty store
does), upserting twice for the same image with two labels leaves exactly
one row for that image, carrying the second label; and upsert preserves
the at-most-one-row-per-image property. -/
theorem C2_upsert_overwrite (s : Store) (img l1 l2 d1 d2 : String)
    (h : ∀ j, countImg s j ≤ 1) :
    countImg (upsert (upsert s img l1 d1) img l2 d2) img = 1 ∧
    (∀ r ∈ (upsert (upsert s img l1 d1) img l2 d2).rows, r.image = img → r.label = l2) ∧
    ∀ j, countImg (upsert (upsert s img l1 d1) img l2 d2) j ≤ 1 := by
  have h1 : countImg (upsert s img l1 d1) img = 1 := by
    rw [countImg_upsert_self]
    by_cases hz : countImg s img = 0
    · rw [if_pos hz]
    · rw [if_neg hz]
      have := h img
      omega
  refine ⟨?_, upsert_label_of_image _ _ _ _, ?_⟩
  · rw [countImg_upsert_self, h1]
    simp
  · intro j
    by_cases hj : j = img
    · subst hj
      rw [countImg_upsert_self, h1]
      simp
    · rw [countImg_upsert_other _ _ _ _ _ hj, countImg_upsert_other _ _ _ _ _ hj]
      exact h j

/-- Witness for C2 (amended) at a concrete input: double upsert for
`a.jpg` on the empty store. -/
theorem C2_upsert_overwrite_witness :
    (∀ j, countImg emptyStore j ≤ 1) ∧
    (countImg (upsert (upsert emptyStore "a.jpg" "open" "1") "a.jpg" "closed" "1") "a.jpg" = 1 ∧
      (∀ r ∈ (upsert (upsert emptyStore "a.jpg" "open" "1") "a.jpg" "closed" "1").rows,
        r.image = "a.jpg" → r.label = "closed") ∧
      ∀ j, countImg (upsert (upsert emptyStore "a.jpg" "open" "1") "a.jpg" "closed" "1") j ≤ 1) :=
  ⟨fun _ => Nat.zero_le 1,
   C2_upsert_overwrite emptyStore "a.jpg" "open" "closed" "1" "1" (fun _ => Nat.zero_le 1)⟩

/-- Claim C8: `load` of an absent file is the empty mapping (whose columns
are exactly `image`, `label`, `door_id`, as its flushed header shows);
`load` of an existing file is the parse of its lines — shown on a file
with an extra column, retained opaquely, and on a file whose data row
carries one extra leading field, which `read_csv` takes as the row index
and parses without error (the named columns receiving the shifted
values); and a genuinely malformed existing file — a data line wider than
the first data row — fails with a propagated parse error rather than
silently producing an empty store. -/
theorem C8_load_cases :
    load none = .ok emptyStore ∧ emptyStore.rows = [] ∧
    flush emptyStore = ["image,label,door_id"] ∧
    (∀ lines, load (some lines) = parseCSV lines) ∧
    load (some wfFile) =
      .ok ⟨["extra1"], [⟨"a.jpg", "open", "1", ["e1"]⟩, ⟨"b.jpg", "closed", "2", ["e2"]⟩]⟩ ∧
    load (some indexFile) = .ok ⟨[], [⟨"open", "1", "unexpected", []⟩]⟩ ∧
    load (some raggedFile) = .error "Error tokenizing data" :=
  ⟨rfl, rfl, rfl, fun _ => rfl, rfl, rfl, rfl⟩

/-- Claim C10: `upsert` for an image only touches rows keyed by that
image: the sublist of rows for every other image — labels, group
identifiers and opaquely retained extra columns included — and the column
structure are exactly the same after the upsert as before. -/
theorem C10_upsert_frame (s : Store) (img lab did : String) :
    (upsert s img lab did).extraCols = s.extraCols ∧
    (upsert s img lab did).rows.filter (fun r => !(r.image == img)) =
      s.rows.filter (fun r => !(r.image == img)) := by
  refine ⟨upsert_extraCols s img lab did, ?_⟩
  unfold upsert
  split
  next => exact filter_not_map_update s.rows img lab
  next =>
    rw [List.filter_append]
    have h0 : List.filter (fun r => !(r.image == img))
        [(⟨img, lab, did, List.replicate s.extraCols.length ""⟩ : Row)] = [] := by
      simp
    rw [h0, List.append_nil]

/-! ### Claims about the Image Preparer -/

/-- Claim C6, counterexample: the crop rectangle (1020, 510, 1300, 1350)
exceeds the bounds of the 100x100 image, and the spec-level contract
rejects it, but `prepare_image` (whose `PIL.Image.crop` never raises for
an out-of-bounds box) still returns a 280x840 image instead of failing. -/
theorem C6_counterexample :
    ¬ (1300 ≤ tinyImg.width ∧ 1350 ≤ tinyImg.height) ∧
    prepare_image_spec tinyImg = none ∧
    (prepare_image tinyImg).width = 280 ∧ (prepare_image tinyImg).height = 840 :=
  ⟨by decide, rfl, rfl, rfl⟩

/-- Claim C6, amended: `prepare_image` is a pure total transform: for
every source image it returns the fixed 280x840 crop, with source pixels
where the rectangle overlaps the image and zero-filled pixels where it
exceeds the bounds; it never fails.  When the rectangle lies within the
source bounds this agrees with the spec-level contract. -/
theorem C6_prepare_total (im : Img) :
    (prepare_image im).width = 280 ∧ (prepare_image im).height = 840 ∧
    (∀ x y, (prepare_image im).px x y =
      if x + 1020 < im.width ∧ y + 510 < im.height then im.px (x + 1020) (y + 510) else 0) ∧
    (1300 ≤ im.width → 1350 ≤ im.height → prepare_image_spec im = some (prepare_image im)) := by
  refine ⟨rfl, rfl, fun x y => rfl, fun hw hh => ?_⟩
  unfold prepare_image_spec prepare_image
  rw [if_pos ⟨hw, hh⟩]

/-- Witness for C6 (amended) at a concrete input: a 1300x1350 image, on
which the crop rectangle is within bounds. -/
theorem C6_prepare_total_witness :
    1300 ≤ bigImg.width ∧ 1350 ≤ bigImg.height ∧
    prepare_image_spec bigImg = some (prepare_image bigImg) :=
  ⟨by decide, by decide, (C6_prepare_total bigImg).2.2.2 (by decide) (by decide)⟩

/-! ### Navigation lemmas -/

theorem save_nav (s : Labeler) :
    (save s).imageFiles = s.imageFiles ∧ (save s).currentImageIndex = s.currentImageIndex ∧
    (save s).labels = s.labels ∧ (save s).currentLabelIndex = s.currentLabelIndex := by
  obtain ⟨dId, imf, labs, cImg, cIdx, cLab, cLIdx, df, file⟩ := s
  cases cLab with
  | none => exact ⟨rfl, rfl, rfl, rfl⟩
  | some lab =>
    cases cImg with
    | none => exact ⟨rfl, rfl, rfl, rfl⟩
    | some img => exact ⟨rfl, rfl, rfl, rfl⟩

theorem next_image_nav (s : Labeler) (b : Bool) :
    (next_image s b).imageFiles = s.imageFiles ∧
    (next_image s b).currentImageIndex = fwdIdx s.imageFiles.length s.currentImageIndex ∧
    (next_image s b).labels = s.labels ∧
    (next_image s b).currentLabelIndex = s.currentLabelIndex := by
  obtain ⟨h1, h2, h3, h4⟩ := save_nav s
  cases b with
  | false =>
    refine ⟨h1, ?_, h3, h4⟩
    have e : (next_image s false).currentImageIndex =
        fwdIdx (save s).imageFiles.length (save s).currentImageIndex := rfl
    rw [e, h1, h2]
  | true => exact ⟨rfl, rfl, rfl, rfl⟩

theorem previous_image_nav (s : Labeler) :
    (previous_image s).imageFiles = s.imageFiles ∧
    (previous_image s).currentImageIndex = bwdIdx s.imageFiles.length s.currentImageIndex ∧
    (previous_image s).labels = s.labels ∧
    (previous_image s).currentLabelIndex = s.currentLabelIndex := by
  obtain ⟨h1, h2, h3, h4⟩ := save_nav s
  refine ⟨h1, ?_, h3, h4⟩
  have e : (previous_image s).currentImageIndex =
      bwdIdx (save s).imageFiles.length (save s).currentImageIndex := rfl
  rw [e, h1, h2]

theorem fwdIdx_valid (len : Nat) (i : Int) (h0 : 0 ≤ i) (h1 : i < (len : Int)) :
    0 ≤ fwdIdx len i ∧ fwdIdx len i < (len : Int) := by
  unfold fwdIdx; split <;> omega

theorem bwdIdx_valid (len : Nat) (i : Int) (h0 : 0 ≤ i) (h1 : i < (len : Int)) :
    0 ≤ bwdIdx len i ∧ bwdIdx len i < (len : Int) := by
  unfold bwdIdx; split <;> omega

theorem bwdIdx_fwdIdx (len : Nat) (i : Int) (h0 : 0 ≤ i) (h1 : i < (len : Int)) :
    bwdIdx len (fwdIdx len i) = i := by
  unfold fwdIdx bwdIdx; split <;> split <;> omega

theorem nav_roundtrip_aux (n : Nat) :
    ∀ s : Labeler, 0 ≤ s.currentImageIndex → s.currentImageIndex < (s.imageFiles.length : Int) →
      (previous_image^[n] (nextStep^[n] s)).currentImageIndex = s.currentImageIndex ∧
      (previous_image^[n] (nextStep^[n] s)).imageFiles = s.imageFiles := by
  induction n with
  | zero => exact fun s _ _ => ⟨rfl, rfl⟩
  | succ n ih =>
    intro s h0 h1
    have hv := fwdIdx_valid s.imageFiles.length s.currentImageIndex h0 h1
    have hstep : nextStep s = next_image s false := rfl
    have hn1 : 0 ≤ (nextStep s).currentImageIndex := by
      rw [hstep, (next_image_nav s false).2.1]; exact hv.1
    have hn2 : (nextStep s).currentImageIndex < ((nextStep s).imageFiles.length : Int) := by
      rw [hstep, (next_image_nav s false).2.1, (next_image_nav s false).1]; exact hv.2
    obtain ⟨hIdx, hFiles⟩ := ih (nextStep s) hn1 hn2
    rw [Function.iterate_succ_apply']
    rw [Function.iterate_succ_apply]
    constructor
    · rw [(previous_image_nav _).2.1, hIdx, hFiles, hstep, (next_image_nav s false).2.1,
        (next_image_nav s false).1]
      exact bwdIdx_fwdIdx _ _ h0 h1
    · rw [(previous_image_nav _).1, hFiles, hstep, (next_image_nav s false).1]

/-! ### Claims about navigation -/

/-- Claim C3: from every valid starting image index, applying the forward
navigation step N times and then the backward navigation step N times
returns the image index to the starting value (wrap-around symmetry). -/
theorem C3_nav_roundtrip (s : Labeler) (n : Nat)
    (h0 : 0 ≤ s.currentImageIndex) (h1 : s.currentImageIndex < (s.imageFiles.length : Int)) :
    (previous_image^[n] (nextStep^[n] s)).currentImageIndex = s.currentImageIndex :=
  (nav_roundtrip_aux n s h0 h1).1

/-- Witness for C3 at a concrete input: three images, starting index 0,
two steps forward then two steps back. -/
theorem C3_nav_roundtrip_witness :
    0 ≤ sampleLabeler3.currentImageIndex ∧
    sampleLabeler3.currentImageIndex < (sampleLabeler3.imageFiles.length : Int) ∧
    (previous_image^[2] (nextStep^[2] sampleLabeler3)).currentImageIndex =
      sampleLabeler3.currentImageIndex :=
  ⟨by decide, by decide, C3_nav_roundtrip sampleLabeler3 2 (by decide) (by decide)⟩

/-- Claim C4: `skip_image` advances the image index exactly as
`next_image` does, but leaves the in-memory store and the backing file
untouched — unconditionally, whether or not a label is selected. -/
theorem C4_skip_frame (s : Labeler) :
    (skip_image s).doorsDf = s.doorsDf ∧ (skip_image s).csvFile = s.csvFile ∧
    (skip_image s).currentImageIndex = (next_image s).currentImageIndex ∧
    (skip_image s).currentImageIndex = fwdIdx s.imageFiles.length s.currentImageIndex := by
  refine ⟨rfl, rfl, ?_, rfl⟩
  rw [(next_image_nav s false).2.1]
  rfl

/-- Claim C5: `previous_image`, like `next_image`, first persists the
current image's label when one is selected — upserting the row and writing
one full flush of the store to the backing file — and only then moves the
image index (backward for `previous`, forward for `next`, both computed
from the pre-move state); when no label is selected, neither transition
touches the store or the file. -/
theorem C5_previous_persists (s : Labeler) (lab img : String) :
    (s.currentLabel = some lab → s.currentImage = some img →
      ((previous_image s).doorsDf = upsert s.doorsDf img lab (toString s.doorId) ∧
       (previous_image s).csvFile = some (flush (upsert s.doorsDf img lab (toString s.doorId))) ∧
       (previous_image s).currentImageIndex = bwdIdx s.imageFiles.length s.currentImageIndex ∧
       (next_image s).doorsDf = upsert s.doorsDf img lab (toString s.doorId) ∧
       (next_image s).csvFile = some (flush (upsert s.doorsDf img lab (toString s.doorId))) ∧
       (next_image s).currentImageIndex = fwdIdx s.imageFiles.length s.currentImageIndex)) ∧
    (s.currentLabel = none →
      ((previous_image s).doorsDf = s.doorsDf ∧ (previous_image s).csvFile = s.csvFile ∧
       (next_image s).doorsDf = s.doorsDf ∧ (next_image s).csvFile = s.csvFile)) := by
  obtain ⟨dId, imf, labs, cImg, cIdx, cLab, cLIdx, df, file⟩ := s
  constructor
  · intro hl hi
    subst hl
    subst hi
    exact ⟨rfl, rfl, rfl, rfl, rfl, rfl⟩
  · intro hl
    subst hl
    exact ⟨rfl, rfl, rfl, rfl⟩

/-- Witness for C5 at a concrete input: a session with label `open`
selected on image `a.jpg`. -/
theorem C5_previous_persists_witness :
    sampleLabeler.currentLabel = some "open" ∧ sampleLabeler.currentImage = some "a.jpg" ∧
    ((previous_image sampleLabeler).doorsDf =
        upsert sampleLabeler.doorsDf "a.jpg" "open" (toString sampleLabeler.doorId) ∧
     (previous_image sampleLabeler).csvFile =
        some (flush (upsert sampleLabeler.doorsDf "a.jpg" "open" (toString sampleLabeler.doorId))) ∧
     (previous_image sampleLabeler).currentImageIndex =
        bwdIdx sampleLabeler.imageFiles.length sampleLabeler.currentImageIndex ∧
     (next_image sampleLabeler).doorsDf =
        upsert sampleLabeler.doorsDf "a.jpg" "open" (toString sampleLabeler.doorId) ∧
     (next_image sampleLabeler).csvFile =
        some (flush (upsert sampleLabeler.doorsDf "a.jpg" "open" (toString sampleLabeler.doorId))) ∧
     (next_image sampleLabeler).currentImageIndex =
        fwdIdx sampleLabeler.imageFiles.length sampleLabeler.currentImageIndex) :=
  ⟨rfl, rfl, (C5_previous_persists sampleLabeler "open" "a.jpg").1 rfl rfl⟩

/-- Claim C7: label index cycling wraps at both ends: from index 0,
cycling backward yields the last valid index of the label list; from the
last index, cycling forward yields 0; in both directions the selected
label becomes the label at the new index. -/
theorem C7_label_wrap (s : Labeler) (hne : s.labels ≠ []) :
    (s.currentLabelIndex = 0 →
      ((previous_label s).currentLabelIndex = (s.labels.length : Int) - 1 ∧
       (previous_label s).currentLabel = s.labels[s.labels.length - 1]?)) ∧
    (s.currentLabelIndex = (s.labels.length : Int) - 1 →
      ((next_label s).currentLabelIndex = 0 ∧
       (next_label s).currentLabel = s.labels[0]?)) := by
  have hlen : 0 < s.labels.length := List.length_pos.mpr hne
  constructor
  · intro h0
    have e1 : (previous_label s).currentLabelIndex =
        bwdIdx s.labels.length s.currentLabelIndex := rfl
    have e2 : (previous_label s).currentLabel =
        s.labels[(bwdIdx s.labels.length s.currentLabelIndex).toNat]? := rfl
    have hb : bwdIdx s.labels.length s.currentLabelIndex = (s.labels.length : Int) - 1 := by
      rw [h0]; unfold bwdIdx; rw [if_pos (by omega)]
    have ht : ((s.labels.length : Int) - 1).toNat = s.labels.length - 1 := by omega
    rw [e1, e2, hb, ht]
    exact ⟨rfl, rfl⟩
  · intro h0
    have e1 : (next_label s).currentLabelIndex =
        fwdIdx s.labels.length s.currentLabelIndex := rfl
    have e2 : (next_label s).currentLabel =
        s.labels[(fwdIdx s.labels.length s.currentLabelIndex).toNat]? := rfl
    have hf : fwdIdx s.labels.length s.currentLabelIndex = 0 := by
      rw [h0]; unfold fwdIdx; rw [if_pos (by omega)]
    rw [e1, e2, hf]
    exact ⟨rfl, rfl⟩

/-- Witness for C7 at a concrete input: a single-label session, where
index 0 is also the last valid index. -/
theorem C7_label_wrap_witness :
    sampleLabeler.labels ≠ [] ∧ sampleLabeler.currentLabelIndex = 0 ∧
    sampleLabeler.currentLabelIndex = (sampleLabeler.labels.length : Int) - 1 ∧
    ((previous_label sampleLabeler).currentLabelIndex =
        (sampleLabeler.labels.length : Int) - 1 ∧
     (previous_label sampleLabeler).currentLabel =
        sampleLabeler.labels[sampleLabeler.labels.length - 1]?) ∧
    ((next_label sampleLabeler).currentLabelIndex = 0 ∧
     (next_label sampleLabeler).currentLabel = sampleLabeler.labels[0]?) :=
  ⟨by decide, rfl, by decide,
   (C7_label_wrap sampleLabeler (by decide)).1 rfl,
   (C7_label_wrap sampleLabeler (by decide)).2 (by decide)⟩

/-- Claim C9: from any state whose current indices are valid, every
navigation operation — image forward/backward/skip, label cycling in both
directions, and selecting a label at a valid pick position — leaves both
the image index and the label index valid positions in their sequences. -/
theorem C9_index_valid (s : Labeler) (i : Nat) (h : validIdx s) (hi : i < s.labels.length) :
    validIdx (next_image s) ∧ validIdx (previous_image s) ∧ validIdx (skip_image s) ∧
    validIdx (next_label s) ∧ validIdx (previous_label s) ∧ validIdx (select_label s i) := by
  obtain ⟨hi0, hi1, hl0, hl1⟩ := h
  have hf := fwdIdx_valid s.imageFiles.length s.currentImageIndex hi0 hi1
  have hb := bwdIdx_valid s.imageFiles.length s.currentImageIndex hi0 hi1
  have hfl := fwdIdx_valid s.labels.length s.currentLabelIndex hl0 hl1
  have hbl := bwdIdx_valid s.labels.length s.currentLabelIndex hl0 hl1
  refine ⟨?_, ?_, ?_, ?_, ?_, ?_⟩
  · obtain ⟨e1, e2, e3, e4⟩ := next_image_nav s false
    exact ⟨by rw [e2]; exact hf.1, by rw [e2, e1]; exact hf.2,
      by rw [e4]; exact hl0, by rw [e4, e3]; exact hl1⟩
  · obtain ⟨e1, e2, e3, e4⟩ := previous_image_nav s
    exact ⟨by rw [e2]; exact hb.1, by rw [e2, e1]; exact hb.2,
      by rw [e4]; exact hl0, by rw [e4, e3]; exact hl1⟩
  · obtain ⟨e1, e2, e3, e4⟩ := next_image_nav s true
    have es : skip_image s = next_image s true := rfl
    exact ⟨by rw [es, e2]; exact hf.1, by rw [es, e2, e1]; exact hf.2,
      by rw [es, e4]; exact hl0, by rw [es, e4, e3]; exact hl1⟩
  · exact ⟨hi0, hi1, hfl.1, hfl.2⟩
  · exact ⟨hi0, hi1, hbl.1, hbl.2⟩
  · exact ⟨hi0, hi1, Int.natCast_nonneg i,
      by show (i : Int) < (s.labels.length : Int); exact_mod_cast hi⟩

/-- Witness for C9 at a concrete input: three images, two labels, both
indices 0, picking label 1. -/
theorem C9_index_valid_witness :
    validIdx sampleLabeler3 ∧ 1 < sampleLabeler3.labels.length ∧
    (validIdx (next_image sampleLabeler3) ∧ validIdx (previous_image sampleLabeler3) ∧
     validIdx (skip_image sampleLabeler3) ∧ validIdx (next_label sampleLabeler3) ∧
     validIdx (previous_label sampleLabeler3) ∧ validIdx (select_label sampleLabeler3 1)) :=
  ⟨by decide, by decide, C9_index_valid sampleLabeler3 1 (by decide) (by decide)⟩

end LabelData
